import Mathlib

/-!
Verification development for the multiband equalizer engine
(`SignalProcessingMultiBandEQ.py`).  Waveform buffers are modelled as
shaped real tensors, spectra as shaped complex tensors; the numeric
backend's transforms (`torch.fft.rfft` / `irfft`, `torch.stft` /
`istft`) are modelled by their mathematical definitions over ℝ and ℂ.
The three strategies (`process_rfft`, `process_hann`, `process_subcomp`)
are embedded stage by stage, following the Python source.
-/

namespace MultibandEQ

open Finset

/-- A real tensor: an explicit shape plus data indexed by an index list
(one entry per axis; entries outside the shape are junk values). -/
structure RTensor where
  shape : List ℕ
  data : List ℕ → ℝ

/-- A complex tensor, same representation as `RTensor`. -/
structure CTensor where
  shape : List ℕ
  data : List ℕ → ℂ

/-- The maximum absolute value over a rank-3 buffer, `torch.max(torch.abs(w))`.
For an empty buffer the value is 0 (the real `torch.max` is never reached on
an empty buffer along the paths modelled here). -/
noncomputable def maxAbs (t : RTensor) : ℝ :=
  if h : 0 < t.shape.getD 0 0 ∧ 0 < t.shape.getD 1 0 ∧ 0 < t.shape.getD 2 0 then
    (Finset.range (t.shape.getD 0 0) ×ˢ Finset.range (t.shape.getD 1 0) ×ˢ
        Finset.range (t.shape.getD 2 0)).sup'
      ((Finset.nonempty_range_iff.mpr h.1.ne').product
        ((Finset.nonempty_range_iff.mpr h.2.1.ne').product
          (Finset.nonempty_range_iff.mpr h.2.2.ne')))
      (fun p => |t.data [p.1, p.2.1, p.2.2]|)
  else 0

/-- `normalize_waveform`: if the maximum absolute value exceeds 1.0 the
whole buffer is divided by it, otherwise the buffer is returned unchanged. -/
noncomputable def normalize_waveform (waveform : RTensor) : RTensor :=
  if 1 < maxAbs waveform then
    { shape := waveform.shape, data := fun idx => waveform.data idx / maxAbs waveform }
  else waveform

/-- The value stored under the `waveform` key: either a tensor or some
other (non-tensor) object, for which the `isinstance` check fails. -/
inductive WaveValue where
  | tensor (t : RTensor)
  | notTensor

/-- The `audio_input` dictionary: both keys are optional (`dict.get`). -/
structure AudioInput where
  waveform : Option WaveValue
  sample_rate : Option ℝ

/-- The error kinds the strategies can raise: one per `raise` site of
the shared validation prefix, plus the backend `RuntimeError` that
`torch.stft`'s reflective padding raises when the padding size (1024)
is not smaller than the signal length. -/
inductive EqError where
  | missingInput
  | typeError
  | shapeError
  | unsupportedChannel (channels : ℕ)
  | runtimeError
deriving DecidableEq

/-- The returned dictionary: equalized waveform plus sample rate. -/
structure AudioOutput where
  waveform : RTensor
  sample_rate : ℝ

/-- The validation prefix common to all three strategies (identical code
in each): missing waveform or sample rate, non-tensor waveform, rank ≠ 3,
channel count outside {1, 2}, in that order. -/
def validate_input (audio_input : AudioInput) : Except EqError (RTensor × ℝ) :=
  match audio_input.waveform, audio_input.sample_rate with
  | none, _ => .error .missingInput
  | some _, none => .error .missingInput
  | some .notTensor, some _ => .error .typeError
  | some (.tensor waveform), some sample_rate =>
    if waveform.shape.length ≠ 3 then .error .shapeError
    else
      let channels := waveform.shape.getD 1 0
      if channels = 1 ∨ channels = 2 then .ok (waveform, sample_rate)
      else .error (.unsupportedChannel channels)

/-- The seven band names of the band tables. -/
inductive BandName where
  | sub_bass
  | bass
  | low_mid
  | mid
  | upper_mid
  | presence
  | brilliance
deriving DecidableEq

/-- The per-band gain dispatch (the `if band == ...` chain / the
`gains_db` dictionaries): selects the gain argument for a band name. -/
def band_select (sub_bass_gain_db bass_gain_db low_mid_gain_db mid_gain_db
    upper_mid_gain_db presence_gain_db brilliance_gain_db : ℝ) : BandName → ℝ
  | .sub_bass => sub_bass_gain_db
  | .bass => bass_gain_db
  | .low_mid => low_mid_gain_db
  | .mid => mid_gain_db
  | .upper_mid => upper_mid_gain_db
  | .presence => presence_gain_db
  | .brilliance => brilliance_gain_db

/-- Decibel to linear conversion, `10 ** (gain_db / 20)`. -/
noncomputable def db_to_linear (gain_db : ℝ) : ℝ := (10 : ℝ) ^ (gain_db / 20)

/-- The gain clamp of `process_hann`: `min(gain_db, 12.0)`, upper bound only. -/
noncomputable def hann_clamp_db (gain_db : ℝ) : ℝ := min gain_db 12

/-- The gain clamp of `process_subcomp`:
`max(min(gain_db, 24.0), -24.0)`, both bounds. -/
noncomputable def subcomp_clamp_db (gain_db : ℝ) : ℝ := max (min gain_db 24) (-24)

/-- `torch.linspace a b steps` at index `i`. -/
noncomputable def linspace (a b : ℝ) (steps : ℕ) (i : ℕ) : ℝ :=
  if steps ≤ 1 then a else a + (b - a) * i / ((steps - 1 : ℕ) : ℝ)

/-- The band table of `process_rfft`: brilliance ends at the fixed 20000 Hz. -/
noncomputable def rfft_bands : List (BandName × ℝ × ℝ) :=
  [(.sub_bass, 20, 60), (.bass, 60, 250), (.low_mid, 250, 500), (.mid, 500, 2000),
   (.upper_mid, 2000, 4000), (.presence, 4000, 6000), (.brilliance, 6000, 20000)]

/-- The band table of `process_hann`: brilliance ends at Nyquist. -/
noncomputable def hann_bands (sample_rate : ℝ) : List (BandName × ℝ × ℝ) :=
  [(.sub_bass, 20, 60), (.bass, 60, 250), (.low_mid, 250, 500), (.mid, 500, 2000),
   (.upper_mid, 2000, 4000), (.presence, 4000, 6000), (.brilliance, 6000, sample_rate / 2)]

/-- The band table of `process_subcomp`: brilliance ends at Nyquist. -/
noncomputable def subcomp_bands (sample_rate : ℝ) : List (BandName × ℝ × ℝ) :=
  [(.sub_bass, 20, 60), (.bass, 60, 250), (.low_mid, 250, 500), (.mid, 500, 2000),
   (.upper_mid, 2000, 4000), (.presence, 4000, 6000), (.brilliance, 6000, sample_rate / 2)]

/-- The gain factor `process_rfft` ends up with at a bin of frequency
`freq`: the band loop multiplies the (initially 1) factor by the band's
linear gain whenever `f_start ≤ freq < f_end`. -/
noncomputable def rfft_gain_factor (gains_linear : BandName → ℝ) (freq : ℝ) : ℝ :=
  rfft_bands.foldl
    (fun acc band =>
      if band.2.1 ≤ freq ∧ freq < band.2.2 then acc * gains_linear band.1 else acc) 1

/-- One bin of the one-sided DFT (`torch.fft.rfft`) of a length-`n` row. -/
noncomputable def dft_bin (x : ℕ → ℝ) (n k : ℕ) : ℂ :=
  ∑ j ∈ Finset.range n, (x j : ℂ) *
    Complex.exp (-(2 * (Real.pi : ℂ) * Complex.I * j * k) / n)

/-- The Hermitian extension of a one-sided spectrum (`n / 2 + 1` bins) to
a full length-`n` spectrum, as `torch.fft.irfft` interprets its input. -/
noncomputable def hermext (y : ℕ → ℂ) (n k : ℕ) : ℂ :=
  if k < n / 2 + 1 then y k else starRingEnd ℂ (y (n - k))

/-- One sample of the inverse one-sided DFT (`torch.fft.irfft` with
output length `n`). -/
noncomputable def irfft_entry (y : ℕ → ℂ) (n s : ℕ) : ℝ :=
  ((1 / (n : ℂ)) * ∑ k ∈ Finset.range n,
    hermext y n k * Complex.exp ((2 * (Real.pi : ℂ) * Complex.I * k * s) / n)).re

/-- `torch.fft.rfft(waveform, dim=-1)` on a rank-3 tensor. -/
noncomputable def rfftTransform (t : RTensor) : CTensor :=
  { shape := [t.shape.getD 0 0, t.shape.getD 1 0, t.shape.getD 2 0 / 2 + 1],
    data := fun idx =>
      dft_bin (fun j => t.data [idx.getD 0 0, idx.getD 1 0, j])
        (t.shape.getD 2 0) (idx.getD 2 0) }

/-- `torch.fft.irfft(spec, n, dim=-1)` on a rank-3 complex tensor. -/
noncomputable def irfftTransform (t : CTensor) (n : ℕ) : RTensor :=
  { shape := [t.shape.getD 0 0, t.shape.getD 1 0, n],
    data := fun idx =>
      irfft_entry (fun k => t.data [idx.getD 0 0, idx.getD 1 0, k]) n (idx.getD 2 0) }

/-- The linear gain dictionary of `process_rfft`: plain conversion of
each dB gain, with no clamping. -/
noncomputable def rfft_gains_linear (sub_bass_gain_db bass_gain_db low_mid_gain_db
    mid_gain_db upper_mid_gain_db presence_gain_db brilliance_gain_db : ℝ) :
    BandName → ℝ := fun b =>
  db_to_linear (band_select sub_bass_gain_db bass_gain_db low_mid_gain_db
    mid_gain_db upper_mid_gain_db presence_gain_db brilliance_gain_db b)

/-- The gain-shaped one-sided spectrum of `process_rfft`: the FFT of the
waveform, each bin multiplied by the band-mask gain factor at that bin's
center frequency (`torch.linspace(0, sample_rate/2, n_bins)`). -/
noncomputable def rfft_fft_eq (waveform : RTensor) (sample_rate : ℝ)
    (gains_linear : BandName → ℝ) : CTensor :=
  { shape := (rfftTransform waveform).shape,
    data := fun idx => (rfftTransform waveform).data idx *
      (rfft_gain_factor gains_linear
        (linspace 0 (sample_rate / 2) ((rfftTransform waveform).shape.getD 2 0)
          (idx.getD 2 0)) : ℂ) }

/-- `process_rfft`: validate, convert the seven dB gains (no clamping),
take the one-sided FFT, multiply each bin by the band-mask gain factor,
invert at the original sample count, and normalize. -/
noncomputable def process_rfft (audio_input : AudioInput)
    (sub_bass_gain_db bass_gain_db low_mid_gain_db mid_gain_db
     upper_mid_gain_db presence_gain_db brilliance_gain_db : ℝ) :
    Except EqError AudioOutput :=
  match validate_input audio_input with
  | .error e => .error e
  | .ok (waveform, sample_rate) =>
    let num_samples := waveform.shape.getD 2 0
    let waveform_fft_eq := rfft_fft_eq waveform sample_rate
      (rfft_gains_linear sub_bass_gain_db bass_gain_db low_mid_gain_db
        mid_gain_db upper_mid_gain_db presence_gain_db brilliance_gain_db)
    let waveform_eq := irfftTransform waveform_fft_eq num_samples
    .ok { waveform := normalize_waveform waveform_eq, sample_rate := sample_rate }

/-- One coefficient of the periodic Hann window of length `n_fft`
(`torch.hann_window(n_fft, periodic=True)`). -/
noncomputable def hann_window (n_fft j : ℕ) : ℝ :=
  (1 - Real.cos (2 * Real.pi * j / n_fft)) / 2

/-- Reflective padding index map: position `m` of the padded signal
(measured from the start of the original signal, so `m` ranges over
`[-pad, len + pad)`) is read from this index of the original signal. -/
def reflect_index (len : ℕ) (m : ℤ) : ℕ :=
  if m < 0 then (-m).toNat
  else if m < len then m.toNat
  else (2 * ((len : ℤ) - 1) - m).toNat

/-- `waveform.view(-1, num_samples)`: flatten batch and channels. -/
def view2 (t : RTensor) : RTensor :=
  { shape := [t.shape.getD 0 0 * t.shape.getD 1 0, t.shape.getD 2 0],
    data := fun idx =>
      t.data [idx.getD 0 0 / t.shape.getD 1 0, idx.getD 0 0 % t.shape.getD 1 0,
        idx.getD 1 0] }

/-- `waveform_eq.view(batch_size, channels, num_samples)`: restore the
leading dimensions of a flattened rank-2 tensor. -/
def view3 (t : RTensor) (batch_size channels num_samples : ℕ) : RTensor :=
  { shape := [batch_size, channels, num_samples],
    data := fun idx => t.data [idx.getD 0 0 * channels + idx.getD 1 0, idx.getD 2 0] }

/-- The frames a successful `torch.stft` call produces (`n_fft=2048`,
`hop_length=1024`, periodic Hann window, `center=True`,
`pad_mode='reflect'`, `return_complex=True`) on a rank-2 input
`[rows, samples]`: frame `t`, bin `k` of row `i` is the windowed DFT of
2048 reflect-padded samples starting at `t*1024 - 1024`.  Meaningful
only under the padding precondition `1024 < samples` that
`stftTransform` checks; `reflect_index` is single-reflection, valid
exactly under that precondition. -/
noncomputable def stft_frames (x : RTensor) : CTensor :=
  { shape := [x.shape.getD 0 0, 2048 / 2 + 1, x.shape.getD 1 0 / 1024 + 1],
    data := fun idx =>
      ∑ j ∈ Finset.range 2048,
        (hann_window 2048 j : ℂ) *
        (x.data [idx.getD 0 0,
          reflect_index (x.shape.getD 1 0) ((idx.getD 2 0 * 1024 + j : ℤ) - 1024)] : ℂ) *
        Complex.exp (-(2 * (Real.pi : ℂ) * Complex.I * j * (idx.getD 1 0)) / 2048) }

/-- `torch.stft` itself: with `center=True` and `pad_mode='reflect'` the
reflective padding requires the padding size (`n_fft // 2 = 1024`) to be
strictly less than the signal length; otherwise `F.pad` raises a
`RuntimeError` and the call produces nothing.  On success the result is
`stft_frames`. -/
noncomputable def stftTransform (x : RTensor) : Except EqError CTensor :=
  if 1024 < x.shape.getD 1 0 then .ok (stft_frames x) else .error .runtimeError

/-- `torch.istft` with matching parameters and explicit output `length`:
overlap-add of the windowed per-frame inverse real FFTs, divided by the
summed squared window envelope, cropped by the centering pad. -/
noncomputable def istftTransform (y : CTensor) (length : ℕ) : RTensor :=
  { shape := [y.shape.getD 0 0, length],
    data := fun idx =>
      let m := idx.getD 1 0 + 1024
      (∑ t ∈ Finset.range (y.shape.getD 2 0),
        if t * 1024 ≤ m ∧ m < t * 1024 + 2048 then
          hann_window 2048 (m - t * 1024) *
            irfft_entry (fun k => y.data [idx.getD 0 0, k, t]) 2048 (m - t * 1024)
        else 0) /
      (∑ t ∈ Finset.range (y.shape.getD 2 0),
        if t * 1024 ≤ m ∧ m < t * 1024 + 2048 then (hann_window 2048 (m - t * 1024)) ^ 2
        else 0) }

/-- The Gaussian divisor of `process_hann`: `bandwidth / 2` with
`bandwidth = (f_end - f_start) / 2`; no guard against zero width. -/
noncomputable def hann_gaussian_divisor (f_start f_end : ℝ) : ℝ :=
  ((f_end - f_start) / 2) / 2

/-- The Gaussian divisor of `process_subcomp`: `bandwidth / 2` with
`bandwidth = f_end - f_start`, replaced by `f_end * 0.01` when zero. -/
noncomputable def subcomp_gaussian_divisor (f_start f_end : ℝ) : ℝ :=
  (if f_end - f_start = 0 then f_end * 0.01 else f_end - f_start) / 2

/-- The gain factor `process_hann` ends up with at a bin of frequency
`freq`: the band loop multiplies the (initially 1) factor by the blended
Gaussian profile `1 + (gain - 1) * exp(-0.5 ((freq-center)/(bandwidth/2))^2)`. -/
noncomputable def hann_gain_profile (sample_rate : ℝ) (gains_linear : BandName → ℝ)
    (freq : ℝ) : ℝ :=
  (hann_bands sample_rate).foldl
    (fun acc band =>
      acc * (1 + (gains_linear band.1 - 1) *
        Real.exp (-(0.5) * ((freq - (band.2.1 + band.2.2) / 2) /
          hann_gaussian_divisor band.2.1 band.2.2) ^ 2))) 1

/-- The gain factor `process_subcomp` ends up with at a bin of frequency
`freq` (same blend, unhalved bandwidth with the zero-width guard). -/
noncomputable def subcomp_gain_profile (sample_rate : ℝ) (gains_linear : BandName → ℝ)
    (freq : ℝ) : ℝ :=
  (subcomp_bands sample_rate).foldl
    (fun acc band =>
      acc * (1 + (gains_linear band.1 - 1) *
        Real.exp (-(0.5) * ((freq - (band.2.1 + band.2.2) / 2) /
          subcomp_gaussian_divisor band.2.1 band.2.2) ^ 2))) 1

/-- The clamped-and-converted linear gain dictionary of `process_hann`. -/
noncomputable def hann_gains_linear (sub_bass_gain_db bass_gain_db low_mid_gain_db
    mid_gain_db upper_mid_gain_db presence_gain_db brilliance_gain_db : ℝ) :
    BandName → ℝ := fun b =>
  db_to_linear (hann_clamp_db (band_select sub_bass_gain_db bass_gain_db
    low_mid_gain_db mid_gain_db upper_mid_gain_db presence_gain_db brilliance_gain_db b))

/-- The clamped-and-converted linear gain dictionary of `process_subcomp`. -/
noncomputable def subcomp_gains_linear (sub_bass_gain_db bass_gain_db low_mid_gain_db
    mid_gain_db upper_mid_gain_db presence_gain_db brilliance_gain_db : ℝ) :
    BandName → ℝ := fun b =>
  db_to_linear (subcomp_clamp_db (band_select sub_bass_gain_db bass_gain_db
    low_mid_gain_db mid_gain_db upper_mid_gain_db presence_gain_db brilliance_gain_db b))

/-- The STFT bin center frequencies of both windowed strategies:
`torch.linspace(0, sample_rate / 2, waveform_stft.size(1))`. -/
noncomputable def stft_freq (sample_rate : ℝ) (k : ℕ) : ℝ :=
  linspace 0 (sample_rate / 2) (2048 / 2 + 1) k

/-- The gain-shaped STFT of `process_hann` (before inversion), on the
success path of `stftTransform`. -/
noncomputable def hann_stft_eq (waveform : RTensor) (sample_rate : ℝ)
    (gains_linear : BandName → ℝ) : CTensor :=
  let waveform_stft := stft_frames (view2 waveform)
  { shape := waveform_stft.shape,
    data := fun idx => waveform_stft.data idx *
      (hann_gain_profile sample_rate gains_linear (stft_freq sample_rate (idx.getD 1 0)) : ℂ) }

/-- `process_hann`: validate, clamp/convert gains, STFT (which raises
the padding `RuntimeError` for signals of at most 1024 samples),
multiply by the smooth Gaussian gain factors, inverse STFT at the
original length, reshape, and normalize.  On the success path the
matched spectrum is `stft_frames (view2 waveform)`, which the
`hann_stft_eq` stage resumes. -/
noncomputable def process_hann (audio_input : AudioInput)
    (sub_bass_gain_db bass_gain_db low_mid_gain_db mid_gain_db
     upper_mid_gain_db presence_gain_db brilliance_gain_db : ℝ) :
    Except EqError AudioOutput :=
  match validate_input audio_input with
  | .error e => .error e
  | .ok (waveform, sample_rate) =>
    let batch_size := waveform.shape.getD 0 0
    let channels := waveform.shape.getD 1 0
    let num_samples := waveform.shape.getD 2 0
    match stftTransform (view2 waveform) with
    | .error e => .error e
    | .ok _ =>
      let waveform_stft_eq := hann_stft_eq waveform sample_rate
        (hann_gains_linear sub_bass_gain_db bass_gain_db low_mid_gain_db mid_gain_db
          upper_mid_gain_db presence_gain_db brilliance_gain_db)
      let waveform_eq := istftTransform waveform_stft_eq num_samples
      .ok { waveform := normalize_waveform (view3 waveform_eq batch_size channels num_samples),
            sample_rate := sample_rate }

/-- The compressor constants of `process_subcomp` (dB). -/
noncomputable def thresholdDb : ℝ := -20

/-- Compression ratio of `process_subcomp`. -/
noncomputable def ratioParam : ℝ := 4

/-- Knee width of `process_subcomp` (dB). -/
noncomputable def kneeDb : ℝ := 5

/-- Makeup gain of `process_subcomp` (dB). -/
noncomputable def makeupDb : ℝ := 5

/-- The bass mask of `process_subcomp` at bin `k`: 1.0 inside
`[bands['sub_bass'][0], bands['bass'][1]] = [20, 250]` (both ends
inclusive), 0.0 outside. -/
noncomputable def bass_mask_val (sample_rate : ℝ) (k : ℕ) : ℝ :=
  if 20 ≤ stft_freq sample_rate k ∧ stft_freq sample_rate k ≤ 250 then 1 else 0

/-- The soft-knee compression amount (a dB delta) as a function of
`over_threshold`, following the two sequential masked assignments of the
source (the quadratic knee value is written where `over > -knee/2` and
then overwritten by the linear value where `over > knee/2`, so the linear
branch wins wherever both masks hold). -/
noncomputable def compression_amount (over_threshold : ℝ) : ℝ :=
  if kneeDb / 2 < over_threshold then (1 / ratioParam - 1) * over_threshold
  else if -(kneeDb / 2) < over_threshold then
    (1 / ratioParam - 1) * (over_threshold + kneeDb / 2) ^ 2 / (2 * kneeDb)
  else 0

/-- The linear gain-reduction factor, `10 ** (gain_reduction_db / 20)`. -/
noncomputable def gain_reduction_linear (over_threshold : ℝ) : ℝ :=
  db_to_linear (compression_amount over_threshold)

/-- The `over_threshold` value of `process_subcomp` at a bin with
magnitude `mag` and bass-mask value `maskv`:
`20*log10(magnitude*mask + 1e-8) - threshold`. -/
noncomputable def subcomp_over_threshold (mag maskv : ℝ) : ℝ :=
  20 * Real.logb 10 (mag * maskv + 1e-8) - thresholdDb

/-- The gain-shaped STFT of `process_subcomp` (before compression), on
the success path of `stftTransform`. -/
noncomputable def subcomp_stft_eq (waveform : RTensor) (sample_rate : ℝ)
    (gains_linear : BandName → ℝ) : CTensor :=
  let waveform_stft := stft_frames (view2 waveform)
  { shape := waveform_stft.shape,
    data := fun idx => waveform_stft.data idx *
      (subcomp_gain_profile sample_rate gains_linear (stft_freq sample_rate (idx.getD 1 0)) : ℂ) }

/-- The magnitude of the gain-shaped STFT of `process_subcomp`. -/
noncomputable def subcomp_magnitude (waveform : RTensor) (sample_rate : ℝ)
    (gains_linear : BandName → ℝ) : RTensor :=
  { shape := (subcomp_stft_eq waveform sample_rate gains_linear).shape,
    data := fun idx => Complex.abs ((subcomp_stft_eq waveform sample_rate gains_linear).data idx) }

/-- The compressed magnitude of `process_subcomp` before makeup gain:
`magnitude * (1 + gain_reduction_linear * bass_mask)`. -/
noncomputable def subcomp_mag_compressed (waveform : RTensor) (sample_rate : ℝ)
    (gains_linear : BandName → ℝ) : RTensor :=
  { shape := (subcomp_magnitude waveform sample_rate gains_linear).shape,
    data := fun idx =>
      (subcomp_magnitude waveform sample_rate gains_linear).data idx *
        (1 + gain_reduction_linear
          (subcomp_over_threshold ((subcomp_magnitude waveform sample_rate gains_linear).data idx)
            (bass_mask_val sample_rate (idx.getD 1 0))) *
          bass_mask_val sample_rate (idx.getD 1 0)) }

/-- The compressed STFT of `process_subcomp` after makeup gain, with the
original phase restored: `magnitude * makeup * exp(i * phase)`. -/
noncomputable def subcomp_stft_compressed (waveform : RTensor) (sample_rate : ℝ)
    (gains_linear : BandName → ℝ) : CTensor :=
  { shape := (subcomp_stft_eq waveform sample_rate gains_linear).shape,
    data := fun idx =>
      ((subcomp_mag_compressed waveform sample_rate gains_linear).data idx *
        db_to_linear makeupDb : ℝ) *
      Complex.exp (Complex.I *
        (Complex.arg ((subcomp_stft_eq waveform sample_rate gains_linear).data idx) : ℂ)) }

/-- `process_subcomp`: validate, clamp/convert gains, STFT (which raises
the padding `RuntimeError` for signals of at most 1024 samples),
Gaussian gain shaping, soft-knee bass blend, makeup gain, phase
restoration, inverse STFT at the original length, reshape, and
normalize.  On the success path the matched spectrum is
`stft_frames (view2 waveform)`, which the `subcomp_stft_eq` stage
resumes. -/
noncomputable def process_subcomp (audio_input : AudioInput)
    (sub_bass_gain_db bass_gain_db low_mid_gain_db mid_gain_db
     upper_mid_gain_db presence_gain_db brilliance_gain_db : ℝ) :
    Except EqError AudioOutput :=
  match validate_input audio_input with
  | .error e => .error e
  | .ok (waveform, sample_rate) =>
    let batch_size := waveform.shape.getD 0 0
    let channels := waveform.shape.getD 1 0
    let num_samples := waveform.shape.getD 2 0
    match stftTransform (view2 waveform) with
    | .error e => .error e
    | .ok _ =>
      let waveform_stft_eq := subcomp_stft_compressed waveform sample_rate
        (subcomp_gains_linear sub_bass_gain_db bass_gain_db low_mid_gain_db mid_gain_db
          upper_mid_gain_db presence_gain_db brilliance_gain_db)
      let waveform_eq := istftTransform waveform_stft_eq num_samples
      .ok { waveform := normalize_waveform (view3 waveform_eq batch_size channels num_samples),
            sample_rate := sample_rate }

/-- A concrete valid input for the claims' concrete instances: a mono
batch of 2048 constant samples (the data function is constant, so index
junk is irrelevant). -/
noncomputable def constWave : RTensor := { shape := [1, 1, 2048], data := fun _ => 1 }

/-- A minimal concrete valid input: one batch, one channel, two samples. -/
noncomputable def smallWave : RTensor := { shape := [1, 1, 2], data := fun _ => 1 }

/-- The audio dictionary wrapping `smallWave` at 44100 Hz. -/
noncomputable def smallAudio : AudioInput :=
  { waveform := some (.tensor smallWave), sample_rate := some 44100 }

/-! ### Basic lemmas about the normalizer -/

lemma abs_data_le_maxAbs (t : RTensor) {b c s : ℕ} (hb : b < t.shape.getD 0 0)
    (hc : c < t.shape.getD 1 0) (hs : s < t.shape.getD 2 0) :
    |t.data [b, c, s]| ≤ maxAbs t := by
  unfold maxAbs
  rw [dif_pos ⟨by omega, by omega, by omega⟩]
  have hmem : ((b, c, s) : ℕ × ℕ × ℕ) ∈ Finset.range (t.shape.getD 0 0) ×ˢ
      Finset.range (t.shape.getD 1 0) ×ˢ Finset.range (t.shape.getD 2 0) := by
    simp only [Finset.mem_product, Finset.mem_range]
    exact ⟨hb, hc, hs⟩
  exact Finset.le_sup' (fun p : ℕ × ℕ × ℕ => |t.data [p.1, p.2.1, p.2.2]|) hmem

lemma maxAbs_nonneg (t : RTensor) : 0 ≤ maxAbs t := by
  unfold maxAbs
  split
  · rename_i h
    refine le_trans (abs_nonneg (t.data [0, 0, 0])) ?_
    have hmem : ((0, 0, 0) : ℕ × ℕ × ℕ) ∈ Finset.range (t.shape.getD 0 0) ×ˢ
        Finset.range (t.shape.getD 1 0) ×ˢ Finset.range (t.shape.getD 2 0) := by
      simp only [Finset.mem_product, Finset.mem_range]
      exact ⟨h.1, h.2.1, h.2.2⟩
    exact Finset.le_sup' (fun p : ℕ × ℕ × ℕ => |t.data [p.1, p.2.1, p.2.2]|) hmem
  · exact le_refl 0

lemma maxAbs_le {t : RTensor} {M : ℝ} (hM : 0 ≤ M)
    (h : ∀ b c s, b < t.shape.getD 0 0 → c < t.shape.getD 1 0 → s < t.shape.getD 2 0 →
      |t.data [b, c, s]| ≤ M) : maxAbs t ≤ M := by
  unfold maxAbs
  split
  · apply Finset.sup'_le
    rintro ⟨b, c, s⟩ hmem
    simp only [Finset.mem_product, Finset.mem_range] at hmem
    exact h b c s hmem.1 hmem.2.1 hmem.2.2
  · exact hM

lemma normalize_of_le {t : RTensor} (h : maxAbs t ≤ 1) : normalize_waveform t = t := by
  unfold normalize_waveform
  rw [if_neg (not_lt.mpr h)]

lemma normalize_of_gt {t : RTensor} (h : 1 < maxAbs t) :
    normalize_waveform t =
      { shape := t.shape, data := fun idx => t.data idx / maxAbs t } := by
  unfold normalize_waveform
  rw [if_pos h]

lemma normalize_shape (t : RTensor) : (normalize_waveform t).shape = t.shape := by
  unfold normalize_waveform
  split <;> rfl

lemma maxAbs_normalize_le_one (t : RTensor) : maxAbs (normalize_waveform t) ≤ 1 := by
  rcases le_or_lt (maxAbs t) 1 with h | h
  · rw [normalize_of_le h]; exact h
  · rw [normalize_of_gt h]
    refine maxAbs_le zero_le_one ?_
    intro b c s hb hc hs
    rw [abs_div, abs_of_pos (lt_trans one_pos h)]
    exact div_le_one_of_le₀ (abs_data_le_maxAbs t hb hc hs) (le_of_lt (lt_trans one_pos h))

/-! ### Lemmas about the shared validation prefix -/

lemma validate_missing {a : AudioInput} (h : a.waveform = none ∨ a.sample_rate = none) :
    validate_input a = .error .missingInput := by
  rcases a with ⟨wv, sr⟩
  rcases h with h | h
  · subst h
    cases sr <;> rfl
  · subst h
    cases wv with
    | none => rfl
    | some v => cases v <;> rfl

lemma validate_typeError {a : AudioInput} {sr : ℝ} (h1 : a.waveform = some .notTensor)
    (h2 : a.sample_rate = some sr) : validate_input a = .error .typeError := by
  rcases a with ⟨wv, sro⟩
  subst h1
  subst h2
  rfl

lemma validate_shapeError {a : AudioInput} {w : RTensor} {sr : ℝ}
    (h1 : a.waveform = some (.tensor w)) (h2 : a.sample_rate = some sr)
    (h3 : w.shape.length ≠ 3) : validate_input a = .error .shapeError := by
  rcases a with ⟨wv, sro⟩
  subst h1
  subst h2
  unfold validate_input
  dsimp only
  rw [if_pos h3]

lemma validate_channelError {a : AudioInput} {w : RTensor} {sr : ℝ}
    (h1 : a.waveform = some (.tensor w)) (h2 : a.sample_rate = some sr)
    (h3 : w.shape.length = 3)
    (hch : ¬(w.shape.getD 1 0 = 1 ∨ w.shape.getD 1 0 = 2)) :
    validate_input a = .error (.unsupportedChannel (w.shape.getD 1 0)) := by
  rcases a with ⟨wv, sro⟩
  subst h1
  subst h2
  unfold validate_input
  dsimp only
  rw [if_neg (show ¬(w.shape.length ≠ 3) by simp [h3]), if_neg hch]

lemma validate_ok {a : AudioInput} {w : RTensor} {sr : ℝ}
    (h1 : a.waveform = some (.tensor w)) (h2 : a.sample_rate = some sr)
    (h3 : w.shape.length = 3)
    (hch : w.shape.getD 1 0 = 1 ∨ w.shape.getD 1 0 = 2) :
    validate_input a = .ok (w, sr) := by
  rcases a with ⟨wv, sro⟩
  subst h1
  subst h2
  unfold validate_input
  dsimp only
  rw [if_neg (show ¬(w.shape.length ≠ 3) by simp [h3]), if_pos hch]

/-! ### Unfolding lemmas for the three strategies -/

lemma process_rfft_error {a : AudioInput} {e : EqError} (h : validate_input a = .error e)
    (g1 g2 g3 g4 g5 g6 g7 : ℝ) : process_rfft a g1 g2 g3 g4 g5 g6 g7 = .error e := by
  unfold process_rfft
  rw [h]

lemma process_hann_error {a : AudioInput} {e : EqError} (h : validate_input a = .error e)
    (g1 g2 g3 g4 g5 g6 g7 : ℝ) : process_hann a g1 g2 g3 g4 g5 g6 g7 = .error e := by
  unfold process_hann
  rw [h]

lemma process_subcomp_error {a : AudioInput} {e : EqError} (h : validate_input a = .error e)
    (g1 g2 g3 g4 g5 g6 g7 : ℝ) : process_subcomp a g1 g2 g3 g4 g5 g6 g7 = .error e := by
  unfold process_subcomp
  rw [h]

lemma stftTransform_ok {x : RTensor} (h : 1024 < x.shape.getD 1 0) :
    stftTransform x = .ok (stft_frames x) := by
  unfold stftTransform
  rw [if_pos h]

lemma stftTransform_err {x : RTensor} (h : x.shape.getD 1 0 ≤ 1024) :
    stftTransform x = .error .runtimeError := by
  unfold stftTransform
  rw [if_neg (not_lt.mpr h)]

lemma process_rfft_def {a : AudioInput} {w : RTensor} {sr : ℝ}
    (h : validate_input a = .ok (w, sr)) (g1 g2 g3 g4 g5 g6 g7 : ℝ) :
    process_rfft a g1 g2 g3 g4 g5 g6 g7 =
      .ok { waveform := normalize_waveform (irfftTransform
              (rfft_fft_eq w sr (rfft_gains_linear g1 g2 g3 g4 g5 g6 g7))
              (w.shape.getD 2 0)),
            sample_rate := sr } := by
  unfold process_rfft
  rw [h]

lemma process_hann_def {a : AudioInput} {w : RTensor} {sr : ℝ}
    (h : validate_input a = .ok (w, sr)) (hp : 1024 < w.shape.getD 2 0)
    (g1 g2 g3 g4 g5 g6 g7 : ℝ) :
    process_hann a g1 g2 g3 g4 g5 g6 g7 =
      .ok { waveform := normalize_waveform (view3
              (istftTransform (hann_stft_eq w sr (hann_gains_linear g1 g2 g3 g4 g5 g6 g7))
                (w.shape.getD 2 0))
              (w.shape.getD 0 0) (w.shape.getD 1 0) (w.shape.getD 2 0)),
            sample_rate := sr } := by
  unfold process_hann
  rw [h]
  dsimp only
  rw [stftTransform_ok (show 1024 < (view2 w).shape.getD 1 0 from hp)]

lemma process_hann_pad_error {a : AudioInput} {w : RTensor} {sr : ℝ}
    (h : validate_input a = .ok (w, sr)) (hp : w.shape.getD 2 0 ≤ 1024)
    (g1 g2 g3 g4 g5 g6 g7 : ℝ) :
    process_hann a g1 g2 g3 g4 g5 g6 g7 = .error .runtimeError := by
  unfold process_hann
  rw [h]
  dsimp only
  rw [stftTransform_err (show (view2 w).shape.getD 1 0 ≤ 1024 from hp)]

lemma process_subcomp_def {a : AudioInput} {w : RTensor} {sr : ℝ}
    (h : validate_input a = .ok (w, sr)) (hp : 1024 < w.shape.getD 2 0)
    (g1 g2 g3 g4 g5 g6 g7 : ℝ) :
    process_subcomp a g1 g2 g3 g4 g5 g6 g7 =
      .ok { waveform := normalize_waveform (view3
              (istftTransform
                (subcomp_stft_compressed w sr (subcomp_gains_linear g1 g2 g3 g4 g5 g6 g7))
                (w.shape.getD 2 0))
              (w.shape.getD 0 0) (w.shape.getD 1 0) (w.shape.getD 2 0)),
            sample_rate := sr } := by
  unfold process_subcomp
  rw [h]
  dsimp only
  rw [stftTransform_ok (show 1024 < (view2 w).shape.getD 1 0 from hp)]

lemma process_subcomp_pad_error {a : AudioInput} {w : RTensor} {sr : ℝ}
    (h : validate_input a = .ok (w, sr)) (hp : w.shape.getD 2 0 ≤ 1024)
    (g1 g2 g3 g4 g5 g6 g7 : ℝ) :
    process_subcomp a g1 g2 g3 g4 g5 g6 g7 = .error .runtimeError := by
  unfold process_subcomp
  rw [h]
  dsimp only
  rw [stftTransform_err (show (view2 w).shape.getD 1 0 ≤ 1024 from hp)]

/-! ### Fold helpers for the band loops -/

lemma foldl_gain_factor_of_none {gains_linear : BandName → ℝ} {freq : ℝ}
    (l : List (BandName × ℝ × ℝ)) (init : ℝ)
    (h : ∀ band ∈ l, ¬(band.2.1 ≤ freq ∧ freq < band.2.2)) :
    l.foldl (fun acc band =>
      if band.2.1 ≤ freq ∧ freq < band.2.2 then acc * gains_linear band.1 else acc)
      init = init := by
  induction l generalizing init with
  | nil => rfl
  | cons b t ih =>
    rw [List.foldl_cons, if_neg (h b (List.mem_cons_self b t))]
    exact ih init (fun x hx => h x (List.mem_cons_of_mem b hx))

lemma foldl_gain_factor_of_one {gains_linear : BandName → ℝ} {freq : ℝ}
    (l : List (BandName × ℝ × ℝ)) (init : ℝ) (hg : ∀ b, gains_linear b = 1) :
    l.foldl (fun acc band =>
      if band.2.1 ≤ freq ∧ freq < band.2.2 then acc * gains_linear band.1 else acc)
      init = init := by
  induction l generalizing init with
  | nil => rfl
  | cons b t ih =>
    rw [List.foldl_cons,
      show (if b.2.1 ≤ freq ∧ freq < b.2.2 then init * gains_linear b.1 else init) = init
        from by rw [hg, mul_one, ite_self]]
    exact ih init

lemma foldl_blend_of_one (l : List (BandName × ℝ × ℝ)) (gains_linear : BandName → ℝ)
    (hg : ∀ b, gains_linear b = 1) (f : BandName × ℝ × ℝ → ℝ) (init : ℝ) :
    l.foldl (fun acc band => acc * (1 + (gains_linear band.1 - 1) * f band)) init = init := by
  induction l generalizing init with
  | nil => rfl
  | cons b t ih =>
    rw [List.foldl_cons, hg, sub_self, zero_mul, add_zero, mul_one]
    exact ih init

/-! ### Compression helpers -/

lemma compression_amount_nonpos (over : ℝ) : compression_amount over ≤ 0 := by
  unfold compression_amount ratioParam kneeDb
  split_ifs with h1 h2
  · nlinarith
  · nlinarith [sq_nonneg (over + 5 / 2)]
  · exact le_refl 0

lemma gain_reduction_pos (over : ℝ) : 0 < gain_reduction_linear over := by
  unfold gain_reduction_linear db_to_linear
  exact Real.rpow_pos_of_pos (by norm_num) _

lemma gain_reduction_le_one (over : ℝ) : gain_reduction_linear over ≤ 1 := by
  unfold gain_reduction_linear db_to_linear
  apply Real.rpow_le_one_of_one_le_of_nonpos (by norm_num)
  have h := compression_amount_nonpos over
  linarith

lemma subcomp_mag_compressed_data (waveform : RTensor) (sample_rate : ℝ)
    (gains_linear : BandName → ℝ) (idx : List ℕ) :
    (subcomp_mag_compressed waveform sample_rate gains_linear).data idx =
      (subcomp_magnitude waveform sample_rate gains_linear).data idx *
        (1 + gain_reduction_linear
          (subcomp_over_threshold ((subcomp_magnitude waveform sample_rate gains_linear).data idx)
            (bass_mask_val sample_rate (idx.getD 1 0))) *
          bass_mask_val sample_rate (idx.getD 1 0)) := rfl

lemma subcomp_magnitude_nonneg (waveform : RTensor) (sample_rate : ℝ)
    (gains_linear : BandName → ℝ) (idx : List ℕ) :
    0 ≤ (subcomp_magnitude waveform sample_rate gains_linear).data idx :=
  Complex.abs.nonneg _

/-! ### Claim theorems -/

/-- C2: `normalize_waveform` returns its input unchanged when the peak
absolute value is at most 1.0 and divides the whole buffer by the peak
otherwise; consequently the waveform returned by each of the three
strategies always has peak absolute amplitude at most 1.0. -/
theorem C2_peak_normalization :
    (∀ w : RTensor, maxAbs w ≤ 1 → normalize_waveform w = w) ∧
    (∀ w : RTensor, 1 < maxAbs w →
      normalize_waveform w = { shape := w.shape, data := fun idx => w.data idx / maxAbs w }) ∧
    (∀ a g1 g2 g3 g4 g5 g6 g7 out, process_rfft a g1 g2 g3 g4 g5 g6 g7 = .ok out →
      maxAbs out.waveform ≤ 1) ∧
    (∀ a g1 g2 g3 g4 g5 g6 g7 out, process_hann a g1 g2 g3 g4 g5 g6 g7 = .ok out →
      maxAbs out.waveform ≤ 1) ∧
    (∀ a g1 g2 g3 g4 g5 g6 g7 out, process_subcomp a g1 g2 g3 g4 g5 g6 g7 = .ok out →
      maxAbs out.waveform ≤ 1) := by
  refine ⟨fun w h => normalize_of_le h, fun w h => normalize_of_gt h, ?_, ?_, ?_⟩
  · intro a g1 g2 g3 g4 g5 g6 g7 out hout
    rcases hv : validate_input a with e | ⟨w, sr⟩
    · rw [process_rfft_error hv g1 g2 g3 g4 g5 g6 g7] at hout
      exact absurd hout (by simp)
    · rw [process_rfft_def hv g1 g2 g3 g4 g5 g6 g7] at hout
      injection hout with h
      rw [← h]
      exact maxAbs_normalize_le_one _
  · intro a g1 g2 g3 g4 g5 g6 g7 out hout
    rcases hv : validate_input a with e | ⟨w, sr⟩
    · rw [process_hann_error hv g1 g2 g3 g4 g5 g6 g7] at hout
      exact absurd hout (by simp)
    · by_cases hp : 1024 < w.shape.getD 2 0
      · rw [process_hann_def hv hp g1 g2 g3 g4 g5 g6 g7] at hout
        injection hout with h
        rw [← h]
        exact maxAbs_normalize_le_one _
      · rw [process_hann_pad_error hv (le_of_not_lt hp) g1 g2 g3 g4 g5 g6 g7] at hout
        exact absurd hout (by simp)
  · intro a g1 g2 g3 g4 g5 g6 g7 out hout
    rcases hv : validate_input a with e | ⟨w, sr⟩
    · rw [process_subcomp_error hv g1 g2 g3 g4 g5 g6 g7] at hout
      exact absurd hout (by simp)
    · by_cases hp : 1024 < w.shape.getD 2 0
      · rw [process_subcomp_def hv hp g1 g2 g3 g4 g5 g6 g7] at hout
        injection hout with h
        rw [← h]
        exact maxAbs_normalize_le_one _
      · rw [process_subcomp_pad_error hv (le_of_not_lt hp) g1 g2 g3 g4 g5 g6 g7] at hout
        exact absurd hout (by simp)

/-- C3: for every strategy, a missing waveform or sample rate yields the
missing-input error; a present non-tensor waveform the type error; a
tensor of rank other than 3 the shape error; a rank-3 tensor with channel
count outside {1, 2} the unsupported-channel error carrying the actual
count.  In each case the whole result of the strategy is that error (the
`Except` is an `error`, so no transform stage contributes any output). -/
theorem C3_validation_failfast :
    (∀ a g1 g2 g3 g4 g5 g6 g7, a.waveform = none ∨ a.sample_rate = none →
      process_rfft a g1 g2 g3 g4 g5 g6 g7 = .error .missingInput ∧
      process_hann a g1 g2 g3 g4 g5 g6 g7 = .error .missingInput ∧
      process_subcomp a g1 g2 g3 g4 g5 g6 g7 = .error .missingInput) ∧
    (∀ a sr g1 g2 g3 g4 g5 g6 g7, a.waveform = some .notTensor → a.sample_rate = some sr →
      process_rfft a g1 g2 g3 g4 g5 g6 g7 = .error .typeError ∧
      process_hann a g1 g2 g3 g4 g5 g6 g7 = .error .typeError ∧
      process_subcomp a g1 g2 g3 g4 g5 g6 g7 = .error .typeError) ∧
    (∀ a w sr g1 g2 g3 g4 g5 g6 g7, a.waveform = some (.tensor w) →
      a.sample_rate = some sr → w.shape.length ≠ 3 →
      process_rfft a g1 g2 g3 g4 g5 g6 g7 = .error .shapeError ∧
      process_hann a g1 g2 g3 g4 g5 g6 g7 = .error .shapeError ∧
      process_subcomp a g1 g2 g3 g4 g5 g6 g7 = .error .shapeError) ∧
    (∀ a w sr g1 g2 g3 g4 g5 g6 g7, a.waveform = some (.tensor w) →
      a.sample_rate = some sr → w.shape.length = 3 →
      ¬(w.shape.getD 1 0 = 1 ∨ w.shape.getD 1 0 = 2) →
      process_rfft a g1 g2 g3 g4 g5 g6 g7 = .error (.unsupportedChannel (w.shape.getD 1 0)) ∧
      process_hann a g1 g2 g3 g4 g5 g6 g7 = .error (.unsupportedChannel (w.shape.getD 1 0)) ∧
      process_subcomp a g1 g2 g3 g4 g5 g6 g7 = .error (.unsupportedChannel (w.shape.getD 1 0))) := by
  refine ⟨?_, ?_, ?_, ?_⟩
  · intro a g1 g2 g3 g4 g5 g6 g7 h
    have hv := validate_missing h
    exact ⟨process_rfft_error hv g1 g2 g3 g4 g5 g6 g7,
      process_hann_error hv g1 g2 g3 g4 g5 g6 g7,
      process_subcomp_error hv g1 g2 g3 g4 g5 g6 g7⟩
  · intro a sr g1 g2 g3 g4 g5 g6 g7 h1 h2
    have hv := validate_typeError h1 h2
    exact ⟨process_rfft_error hv g1 g2 g3 g4 g5 g6 g7,
      process_hann_error hv g1 g2 g3 g4 g5 g6 g7,
      process_subcomp_error hv g1 g2 g3 g4 g5 g6 g7⟩
  · intro a w sr g1 g2 g3 g4 g5 g6 g7 h1 h2 h3
    have hv := validate_shapeError h1 h2 h3
    exact ⟨process_rfft_error hv g1 g2 g3 g4 g5 g6 g7,
      process_hann_error hv g1 g2 g3 g4 g5 g6 g7,
      process_subcomp_error hv g1 g2 g3 g4 g5 g6 g7⟩
  · intro a w sr g1 g2 g3 g4 g5 g6 g7 h1 h2 h3 hch
    have hv := validate_channelError h1 h2 h3 hch
    exact ⟨process_rfft_error hv g1 g2 g3 g4 g5 g6 g7,
      process_hann_error hv g1 g2 g3 g4 g5 g6 g7,
      process_subcomp_error hv g1 g2 g3 g4 g5 g6 g7⟩

/-- C5: the three strategies clamp differently before `10^(db/20)`:
`process_rfft` converts the raw gains with no clamping, `process_hann`
clamps to at most +12 dB with no lower bound (any gain at most 12 dB,
however negative, passes through), and `process_subcomp` clamps to the
closed interval [-24, +24] dB on both sides. -/
theorem C5_gain_clamping :
    (∀ g1 g2 g3 g4 g5 g6 g7 b, rfft_gains_linear g1 g2 g3 g4 g5 g6 g7 b =
      db_to_linear (band_select g1 g2 g3 g4 g5 g6 g7 b)) ∧
    (∀ g1 g2 g3 g4 g5 g6 g7 b, hann_gains_linear g1 g2 g3 g4 g5 g6 g7 b =
      db_to_linear (min (band_select g1 g2 g3 g4 g5 g6 g7 b) 12)) ∧
    (∀ g : ℝ, g ≤ 12 → hann_clamp_db g = g) ∧
    (∀ g : ℝ, 12 < g → hann_clamp_db g = 12) ∧
    (∀ g1 g2 g3 g4 g5 g6 g7 b, subcomp_gains_linear g1 g2 g3 g4 g5 g6 g7 b =
      db_to_linear (max (min (band_select g1 g2 g3 g4 g5 g6 g7 b) 24) (-24))) ∧
    (∀ g : ℝ, -24 ≤ subcomp_clamp_db g ∧ subcomp_clamp_db g ≤ 24) ∧
    (∀ g : ℝ, -24 ≤ g → g ≤ 24 → subcomp_clamp_db g = g) ∧
    (∀ g : ℝ, db_to_linear g = (10 : ℝ) ^ (g / 20)) := by
  refine ⟨fun _ _ _ _ _ _ _ _ => rfl, fun _ _ _ _ _ _ _ _ => rfl, ?_, ?_,
    fun _ _ _ _ _ _ _ _ => rfl, ?_, ?_, fun _ => rfl⟩
  · intro g hg
    unfold hann_clamp_db
    exact min_eq_left hg
  · intro g hg
    unfold hann_clamp_db
    exact min_eq_right hg.le
  · intro g
    unfold subcomp_clamp_db
    exact ⟨le_max_right _ _, max_le (min_le_right _ _) (by norm_num)⟩
  · intro g h1 h2
    unfold subcomp_clamp_db
    rw [min_eq_left h2, max_eq_left h1]

/-- C8: with the fixed parameters threshold = -20 dB, ratio = 4,
knee = 5 dB, the compression amount is 0 at or below `-knee/2`, the
quadratic knee interpolation on `(-knee/2, knee/2]`, and the linear
reduction above `knee/2`; it is nonpositive in every case, so the linear
gain-reduction factor `10^(compression/20)` lies in (0, 1]. -/
theorem C8_soft_knee_compression :
    thresholdDb = -20 ∧ ratioParam = 4 ∧ kneeDb = 5 ∧
    (∀ over : ℝ, over ≤ -(kneeDb / 2) → compression_amount over = 0) ∧
    (∀ over : ℝ, -(kneeDb / 2) < over → over ≤ kneeDb / 2 →
      compression_amount over =
        (1 / ratioParam - 1) * (over + kneeDb / 2) ^ 2 / (2 * kneeDb)) ∧
    (∀ over : ℝ, kneeDb / 2 < over →
      compression_amount over = (1 / ratioParam - 1) * over) ∧
    (∀ over : ℝ, compression_amount over ≤ 0) ∧
    (∀ over : ℝ, 0 < gain_reduction_linear over ∧ gain_reduction_linear over ≤ 1 ∧
      gain_reduction_linear over = (10 : ℝ) ^ (compression_amount over / 20)) := by
  refine ⟨rfl, rfl, rfl, ?_, ?_, ?_, compression_amount_nonpos,
    fun over => ⟨gain_reduction_pos over, gain_reduction_le_one over, rfl⟩⟩
  · intro over h
    unfold compression_amount
    rw [if_neg (not_lt.mpr (le_trans h (by unfold kneeDb; norm_num))),
      if_neg (not_lt.mpr h)]
  · intro over h1 h2
    unfold compression_amount
    rw [if_neg (not_lt.mpr h2), if_pos h1]
  · intro over h
    unfold compression_amount
    rw [if_pos h]

/-- C10 (implicit): in `process_subcomp`, the compression step multiplies
the magnitude of every bin inside the bass mask by `1 + grl`, a factor
strictly greater than 1 and at most 2, so it never decreases a bass bin's
magnitude; bins outside the mask are left unchanged. -/
theorem C10_bass_blend_monotone (waveform : RTensor) (sample_rate : ℝ)
    (gains_linear : BandName → ℝ) (idx : List ℕ) :
    (bass_mask_val sample_rate (idx.getD 1 0) = 0 ∨
      bass_mask_val sample_rate (idx.getD 1 0) = 1) ∧
    (bass_mask_val sample_rate (idx.getD 1 0) = 1 ↔
      20 ≤ stft_freq sample_rate (idx.getD 1 0) ∧
        stft_freq sample_rate (idx.getD 1 0) ≤ 250) ∧
    (bass_mask_val sample_rate (idx.getD 1 0) = 0 →
      (subcomp_mag_compressed waveform sample_rate gains_linear).data idx =
        (subcomp_magnitude waveform sample_rate gains_linear).data idx) ∧
    (bass_mask_val sample_rate (idx.getD 1 0) = 1 →
      (subcomp_mag_compressed waveform sample_rate gains_linear).data idx =
        (subcomp_magnitude waveform sample_rate gains_linear).data idx *
          (1 + gain_reduction_linear (subcomp_over_threshold
            ((subcomp_magnitude waveform sample_rate gains_linear).data idx) 1)) ∧
      1 < 1 + gain_reduction_linear (subcomp_over_threshold
            ((subcomp_magnitude waveform sample_rate gains_linear).data idx) 1) ∧
      1 + gain_reduction_linear (subcomp_over_threshold
            ((subcomp_magnitude waveform sample_rate gains_linear).data idx) 1) ≤ 2 ∧
      (subcomp_magnitude waveform sample_rate gains_linear).data idx ≤
        (subcomp_mag_compressed waveform sample_rate gains_linear).data idx) := by
  refine ⟨?_, ?_, ?_, ?_⟩
  · unfold bass_mask_val
    split_ifs
    · exact Or.inr rfl
    · exact Or.inl rfl
  · unfold bass_mask_val
    split_ifs with h
    · simpa using h
    · simpa using h
  · intro hm
    rw [subcomp_mag_compressed_data, hm, mul_zero, add_zero, mul_one]
  · intro hm
    have hpos := gain_reduction_pos (subcomp_over_threshold
      ((subcomp_magnitude waveform sample_rate gains_linear).data idx) 1)
    have hle := gain_reduction_le_one (subcomp_over_threshold
      ((subcomp_magnitude waveform sample_rate gains_linear).data idx) 1)
    have hmageq : (subcomp_mag_compressed waveform sample_rate gains_linear).data idx =
        (subcomp_magnitude waveform sample_rate gains_linear).data idx *
          (1 + gain_reduction_linear (subcomp_over_threshold
            ((subcomp_magnitude waveform sample_rate gains_linear).data idx) 1)) := by
      rw [subcomp_mag_compressed_data, hm, mul_one]
    refine ⟨hmageq, by linarith, by linarith, ?_⟩
    rw [hmageq]
    have habs := subcomp_magnitude_nonneg waveform sample_rate gains_linear idx
    nlinarith

/-- C6: the brilliance band ends at the fixed 20000 Hz in the
`process_rfft` table but at `sample_rate / 2` in both STFT tables; and in
`process_rfft` every bin whose center frequency is at least 20000 Hz
keeps gain factor exactly 1 whatever the requested gains. -/
theorem C6_brilliance_asymmetry :
    (BandName.brilliance, (6000 : ℝ), (20000 : ℝ)) ∈ rfft_bands ∧
    (∀ sr : ℝ, (BandName.brilliance, (6000 : ℝ), sr / 2) ∈ hann_bands sr) ∧
    (∀ sr : ℝ, (BandName.brilliance, (6000 : ℝ), sr / 2) ∈ subcomp_bands sr) ∧
    (∀ gains_linear : BandName → ℝ, ∀ freq : ℝ, 20000 ≤ freq →
      rfft_gain_factor gains_linear freq = 1) := by
  refine ⟨by simp [rfft_bands], fun sr => by simp [hann_bands],
    fun sr => by simp [subcomp_bands], ?_⟩
  intro gains_linear freq hfreq
  unfold rfft_gain_factor
  apply foldl_gain_factor_of_none
  intro band hb
  obtain ⟨name, fs, fe⟩ := band
  simp only [rfft_bands, List.mem_cons, Prod.mk.injEq, List.not_mem_nil, or_false] at hb
  rcases hb with ⟨_, _, rfl⟩ | ⟨_, _, rfl⟩ | ⟨_, _, rfl⟩ | ⟨_, _, rfl⟩ |
    ⟨_, _, rfl⟩ | ⟨_, _, rfl⟩ | ⟨_, _, rfl⟩ <;>
    exact fun hcon => by
      have h2 := hcon.2
      dsimp only at h2
      linarith

/-- C7 (counterexample to the claim as stated): at the positive sample
rate 12000 Hz the brilliance band of `process_hann` has zero width, and
the Gaussian profile divisor of `process_hann` for it is exactly 0 —
`process_hann` has no substitution guard, so the divisor is not nonzero
for every positive sample rate in both windowed strategies. -/
theorem C7_counterexample :
    (0 : ℝ) < 12000 ∧
    (BandName.brilliance, (6000 : ℝ), (12000 : ℝ) / 2) ∈ hann_bands 12000 ∧
    hann_gaussian_divisor (6000 : ℝ) ((12000 : ℝ) / 2) = 0 := by
  refine ⟨by norm_num, by simp [hann_bands], ?_⟩
  unfold hann_gaussian_divisor
  norm_num

/-- C7 (amended): only `process_subcomp` carries the explicit zero-width
substitution guard (bandwidth replaced by `0.01 * f_end`); for every
positive sample rate its Gaussian profile divisor is nonzero on every
band, brilliance at Nyquist = 6000 Hz included.  `process_hann` lacks the
guard and its divisor vanishes at sample rate 12000 Hz. -/
theorem C7_subcomp_zero_width_guard (sr : ℝ) (_hsr : 0 < sr) :
    ∀ band ∈ subcomp_bands sr, subcomp_gaussian_divisor band.2.1 band.2.2 ≠ 0 := by
  intro band hb
  obtain ⟨name, fs, fe⟩ := band
  simp only [subcomp_bands, List.mem_cons, Prod.mk.injEq, List.not_mem_nil, or_false] at hb
  rcases hb with ⟨_, rfl, rfl⟩ | ⟨_, rfl, rfl⟩ | ⟨_, rfl, rfl⟩ | ⟨_, rfl, rfl⟩ |
    ⟨_, rfl, rfl⟩ | ⟨_, rfl, rfl⟩ | ⟨_, rfl, rfl⟩
  · unfold subcomp_gaussian_divisor
    rw [if_neg (show ¬((60 : ℝ) - 20 = 0) by norm_num)]
    norm_num
  · unfold subcomp_gaussian_divisor
    rw [if_neg (show ¬((250 : ℝ) - 60 = 0) by norm_num)]
    norm_num
  · unfold subcomp_gaussian_divisor
    rw [if_neg (show ¬((500 : ℝ) - 250 = 0) by norm_num)]
    norm_num
  · unfold subcomp_gaussian_divisor
    rw [if_neg (show ¬((2000 : ℝ) - 500 = 0) by norm_num)]
    norm_num
  · unfold subcomp_gaussian_divisor
    rw [if_neg (show ¬((4000 : ℝ) - 2000 = 0) by norm_num)]
    norm_num
  · unfold subcomp_gaussian_divisor
    rw [if_neg (show ¬((6000 : ℝ) - 4000 = 0) by norm_num)]
    norm_num
  · unfold subcomp_gaussian_divisor
    by_cases h : sr / 2 - 6000 = 0
    · rw [if_pos h]
      have h6 : sr / 2 = 6000 := by linarith
      rw [h6]
      norm_num
    · rw [if_neg h]
      intro hcon
      exact h (by linarith)

/-- C7 witness: the guard theorem applied at the concrete sample rate
12000 Hz and its zero-width brilliance band. -/
theorem C7_subcomp_guard_witness :
    subcomp_gaussian_divisor (6000 : ℝ) ((12000 : ℝ) / 2) ≠ 0 :=
  C7_subcomp_zero_width_guard 12000 (by norm_num)
    (BandName.brilliance, (6000 : ℝ), (12000 : ℝ) / 2) (by simp [subcomp_bands])

lemma shape_eq_of_length_three {l : List ℕ} (h : l.length = 3) :
    l = [l.getD 0 0, l.getD 1 0, l.getD 2 0] := by
  match l, h with
  | [a, b, c], _ => rfl

lemma exp_int_sum (n : ℕ) (hn : n ≠ 0) (m : ℤ) :
    ∑ j ∈ Finset.range n, Complex.exp (2 * (Real.pi : ℂ) * Complex.I * m * j / n) =
      if (n : ℤ) ∣ m then (n : ℂ) else 0 := by
  have hN : (n : ℂ) ≠ 0 := Nat.cast_ne_zero.mpr hn
  have hT : ∀ j : ℕ, Complex.exp (2 * (Real.pi : ℂ) * Complex.I * m * j / n) =
      Complex.exp (2 * (Real.pi : ℂ) * Complex.I * m / n) ^ j := by
    intro j
    rw [← Complex.exp_nat_mul]
    congr 1
    ring
  by_cases hd : (n : ℤ) ∣ m
  · obtain ⟨c, rfl⟩ := hd
    rw [if_pos ⟨c, rfl⟩]
    have h1 : ∀ j : ℕ, j ∈ Finset.range n →
        Complex.exp (2 * (Real.pi : ℂ) * Complex.I * ((n : ℤ) * c : ℤ) * j / n) = 1 := by
      intro j _
      rw [show (2 * (Real.pi : ℂ) * Complex.I * ((n : ℤ) * c : ℤ) * j / n) =
          ((c * j : ℤ) : ℂ) * (2 * (Real.pi : ℂ) * Complex.I) from by
        push_cast
        field_simp
        ring]
      exact Complex.exp_int_mul_two_pi_mul_I _
    rw [Finset.sum_congr rfl h1]
    simp
  · rw [if_neg hd]
    have hzn : Complex.exp (2 * (Real.pi : ℂ) * Complex.I * m / n) ^ n = 1 := by
      rw [← Complex.exp_nat_mul,
        show (n : ℂ) * (2 * (Real.pi : ℂ) * Complex.I * m / n) =
          (m : ℂ) * (2 * (Real.pi : ℂ) * Complex.I) from by field_simp; ring]
      exact Complex.exp_int_mul_two_pi_mul_I m
    have hz1 : Complex.exp (2 * (Real.pi : ℂ) * Complex.I * m / n) ≠ 1 := by
      intro h1
      rw [Complex.exp_eq_one_iff] at h1
      obtain ⟨k, hk⟩ := h1
      apply hd
      refine ⟨k, ?_⟩
      have hpi : (2 * (Real.pi : ℂ) * Complex.I) ≠ 0 := by
        simp [Complex.ofReal_eq_zero, Real.pi_ne_zero, Complex.I_ne_zero, mul_eq_zero]
      have h2 := congrArg (fun z => z * (n : ℂ)) hk
      simp only at h2
      rw [div_mul_cancel₀ _ hN] at h2
      have h3 : (2 * (Real.pi : ℂ) * Complex.I) * (m : ℂ) =
          (2 * (Real.pi : ℂ) * Complex.I) * ((n : ℂ) * (k : ℂ)) := by
        linear_combination h2
      have h4 := mul_left_cancel₀ hpi h3
      exact_mod_cast h4
    rw [Finset.sum_congr rfl (fun j _ => hT j), geom_sum_eq hz1, hzn]
    simp

lemma dft_real_conj (x : ℕ → ℝ) (n k : ℕ) (hn : n ≠ 0) (hk : k ≤ n) :
    starRingEnd ℂ (dft_bin x n (n - k)) = dft_bin x n k := by
  have hN : (n : ℂ) ≠ 0 := Nat.cast_ne_zero.mpr hn
  unfold dft_bin
  rw [map_sum]
  refine Finset.sum_congr rfl ?_
  intro j _
  rw [map_mul, Complex.conj_ofReal]
  congr 1
  rw [← Complex.exp_conj]
  rw [show (starRingEnd ℂ) (-(2 * (Real.pi : ℂ) * Complex.I * j * (n - k : ℕ)) / n) =
      (j : ℂ) * (2 * (Real.pi : ℂ) * Complex.I) +
        (-(2 * (Real.pi : ℂ) * Complex.I * j * k) / n) from ?_]
  · rw [Complex.exp_add, Complex.exp_nat_mul_two_pi_mul_I, one_mul]
  · simp only [map_div₀, map_neg, map_mul, Complex.conj_I, Complex.conj_ofReal,
      Complex.conj_natCast, map_ofNat]
    push_cast [Nat.cast_sub hk]
    field_simp
    ring

lemma dft_inversion (x : ℕ → ℝ) (n : ℕ) (hn : n ≠ 0) (s : ℕ) (hs : s < n) :
    ∑ k ∈ Finset.range n, dft_bin x n k *
      Complex.exp ((2 * (Real.pi : ℂ) * Complex.I * k * s) / n) = (n : ℂ) * (x s : ℂ) := by
  unfold dft_bin
  have e12 : ∀ j k : ℕ, (x j : ℂ) * Complex.exp (-(2 * (Real.pi : ℂ) * Complex.I * j * k) / n) *
      Complex.exp ((2 * (Real.pi : ℂ) * Complex.I * k * s) / n) =
      (x j : ℂ) * Complex.exp (2 * (Real.pi : ℂ) * Complex.I * (((s : ℤ) - (j : ℤ)) : ℤ) * k / n) := by
    intro j k
    rw [mul_assoc, ← Complex.exp_add]
    congr 2
    push_cast
    ring
  calc ∑ k ∈ Finset.range n, (∑ j ∈ Finset.range n, (x j : ℂ) *
        Complex.exp (-(2 * (Real.pi : ℂ) * Complex.I * j * k) / n)) *
        Complex.exp ((2 * (Real.pi : ℂ) * Complex.I * k * s) / n)
      = ∑ k ∈ Finset.range n, ∑ j ∈ Finset.range n, (x j : ℂ) *
          Complex.exp (-(2 * (Real.pi : ℂ) * Complex.I * j * k) / n) *
          Complex.exp ((2 * (Real.pi : ℂ) * Complex.I * k * s) / n) :=
        Finset.sum_congr rfl (fun k _ => Finset.sum_mul _ _ _)
    _ = ∑ j ∈ Finset.range n, ∑ k ∈ Finset.range n, (x j : ℂ) *
          Complex.exp (-(2 * (Real.pi : ℂ) * Complex.I * j * k) / n) *
          Complex.exp ((2 * (Real.pi : ℂ) * Complex.I * k * s) / n) := Finset.sum_comm
    _ = ∑ j ∈ Finset.range n, (x j : ℂ) * ∑ k ∈ Finset.range n,
          Complex.exp (2 * (Real.pi : ℂ) * Complex.I * (((s : ℤ) - (j : ℤ)) : ℤ) * k / n) := by
        refine Finset.sum_congr rfl (fun j _ => ?_)
        rw [Finset.mul_sum]
        exact Finset.sum_congr rfl (fun k _ => e12 j k)
    _ = ∑ j ∈ Finset.range n, (x j : ℂ) *
          (if (n : ℤ) ∣ ((s : ℤ) - (j : ℤ)) then (n : ℂ) else 0) := by
        refine Finset.sum_congr rfl (fun j _ => ?_)
        rw [exp_int_sum n hn ((s : ℤ) - (j : ℤ))]
    _ = (n : ℂ) * (x s : ℂ) := by
        have h0 : ∀ j ∈ Finset.range n, j ≠ s → (x j : ℂ) *
            (if (n : ℤ) ∣ ((s : ℤ) - (j : ℤ)) then (n : ℂ) else 0) = 0 := by
          intro j hj hne
          rw [if_neg, mul_zero]
          intro hdvd
          have hj' := Finset.mem_range.mp hj
          have h := Int.eq_zero_of_dvd_of_natAbs_lt_natAbs hdvd (by omega)
          omega
        have h1 : s ∉ Finset.range n → (x s : ℂ) *
            (if (n : ℤ) ∣ ((s : ℤ) - (s : ℤ)) then (n : ℂ) else 0) = 0 :=
          fun hs' => absurd (Finset.mem_range.mpr hs) hs'
        rw [Finset.sum_eq_single s h0 h1, if_pos (by simp), mul_comm]

lemma hermext_dft (x : ℕ → ℝ) (n : ℕ) (hn : n ≠ 0) (k : ℕ) (hk : k < n) :
    hermext (fun m => dft_bin x n m) n k = dft_bin x n k := by
  unfold hermext
  split_ifs with h
  · rfl
  · exact dft_real_conj x n k hn hk.le

lemma irfft_rfft_entry (x : ℕ → ℝ) (n : ℕ) (hn : n ≠ 0) (s : ℕ) (hs : s < n) :
    irfft_entry (fun k => dft_bin x n k) n s = x s := by
  have hN : (n : ℂ) ≠ 0 := Nat.cast_ne_zero.mpr hn
  unfold irfft_entry
  rw [Finset.sum_congr rfl (fun k hk => by
    rw [hermext_dft x n hn k (Finset.mem_range.mp hk)])]
  rw [dft_inversion x n hn s hs,
    show (1 / (n : ℂ)) * ((n : ℂ) * (x s : ℂ)) = ((x s : ℝ) : ℂ) from by field_simp]
  exact Complex.ofReal_re _

/-! ### Congruence of the normalizer under pointwise-equal buffers -/

lemma maxAbs_congr {t₁ t₂ : RTensor}
    (h0 : t₁.shape.getD 0 0 = t₂.shape.getD 0 0)
    (h1 : t₁.shape.getD 1 0 = t₂.shape.getD 1 0)
    (h2 : t₁.shape.getD 2 0 = t₂.shape.getD 2 0)
    (hd : ∀ b c s, b < t₂.shape.getD 0 0 → c < t₂.shape.getD 1 0 → s < t₂.shape.getD 2 0 →
      t₁.data [b, c, s] = t₂.data [b, c, s]) : maxAbs t₁ = maxAbs t₂ := by
  apply le_antisymm
  · apply maxAbs_le (maxAbs_nonneg t₂)
    intro b c s hb hc hs
    rw [h0] at hb
    rw [h1] at hc
    rw [h2] at hs
    rw [hd b c s hb hc hs]
    exact abs_data_le_maxAbs t₂ hb hc hs
  · apply maxAbs_le (maxAbs_nonneg t₁)
    intro b c s hb hc hs
    rw [← hd b c s hb hc hs]
    exact abs_data_le_maxAbs t₁ (by rw [h0]; exact hb) (by rw [h1]; exact hc)
      (by rw [h2]; exact hs)

lemma normalize_data_congr {t₁ t₂ : RTensor}
    (h0 : t₁.shape.getD 0 0 = t₂.shape.getD 0 0)
    (h1 : t₁.shape.getD 1 0 = t₂.shape.getD 1 0)
    (h2 : t₁.shape.getD 2 0 = t₂.shape.getD 2 0)
    (hd : ∀ b c s, b < t₂.shape.getD 0 0 → c < t₂.shape.getD 1 0 → s < t₂.shape.getD 2 0 →
      t₁.data [b, c, s] = t₂.data [b, c, s])
    {b c s : ℕ} (hb : b < t₂.shape.getD 0 0) (hc : c < t₂.shape.getD 1 0)
    (hs : s < t₂.shape.getD 2 0) :
    (normalize_waveform t₁).data [b, c, s] = (normalize_waveform t₂).data [b, c, s] := by
  have hm := maxAbs_congr h0 h1 h2 hd
  unfold normalize_waveform
  rw [hm]
  split_ifs with h
  · show t₁.data [b, c, s] / maxAbs t₂ = t₂.data [b, c, s] / maxAbs t₂
    rw [hd b c s hb hc hs]
  · exact hd b c s hb hc hs

lemma irfftTransform_data (t : CTensor) (n b c s : ℕ) :
    (irfftTransform t n).data [b, c, s] = irfft_entry (fun k => t.data [b, c, k]) n s := rfl

lemma rfft_fft_eq_data (waveform : RTensor) (sample_rate : ℝ)
    (gains_linear : BandName → ℝ) (b c k : ℕ) :
    (rfft_fft_eq waveform sample_rate gains_linear).data [b, c, k] =
      dft_bin (fun j => waveform.data [b, c, j]) (waveform.shape.getD 2 0) k *
        (rfft_gain_factor gains_linear
          (linspace 0 (sample_rate / 2) (waveform.shape.getD 2 0 / 2 + 1) k) : ℂ) := rfl

/-- C4: with every band gain at 0 dB the linear gains of `process_rfft`
are all 1, its gain-factor field is all ones, and the output waveform is
exactly `normalize_waveform` of the input: the gain multiply is a no-op
and `irfft ∘ rfft` at the original sample count reconstructs the input,
so the result is the input itself, rescaled only when the input's peak
already exceeded 1.0. -/
theorem C4_zero_gain_is_identity (a : AudioInput) (w : RTensor) (sr : ℝ)
    (hw : a.waveform = some (.tensor w)) (hsr : a.sample_rate = some sr)
    (h3 : w.shape.length = 3)
    (hch : w.shape.getD 1 0 = 1 ∨ w.shape.getD 1 0 = 2)
    (hn : 0 < w.shape.getD 2 0) :
    (∀ b, rfft_gains_linear 0 0 0 0 0 0 0 b = 1) ∧
    (∀ freq : ℝ, rfft_gain_factor (rfft_gains_linear 0 0 0 0 0 0 0) freq = 1) ∧
    (∃ out, process_rfft a 0 0 0 0 0 0 0 = .ok out ∧
      out.sample_rate = sr ∧ out.waveform.shape = w.shape ∧
      (∀ b c s, b < w.shape.getD 0 0 → c < w.shape.getD 1 0 → s < w.shape.getD 2 0 →
        out.waveform.data [b, c, s] = (normalize_waveform w).data [b, c, s]) ∧
      (maxAbs w ≤ 1 →
        ∀ b c s, b < w.shape.getD 0 0 → c < w.shape.getD 1 0 → s < w.shape.getD 2 0 →
          out.waveform.data [b, c, s] = w.data [b, c, s])) := by
  have hg1 : ∀ b, rfft_gains_linear 0 0 0 0 0 0 0 b = 1 := by
    intro b
    cases b <;>
      simp [rfft_gains_linear, band_select, db_to_linear, zero_div, Real.rpow_zero]
  have hgf : ∀ freq : ℝ, rfft_gain_factor (rfft_gains_linear 0 0 0 0 0 0 0) freq = 1 := by
    intro freq
    unfold rfft_gain_factor
    exact foldl_gain_factor_of_one _ _ hg1
  have hv := validate_ok hw hsr h3 hch
  have hn' : w.shape.getD 2 0 ≠ 0 := Nat.pos_iff_ne_zero.mp hn
  have hY : ∀ b c s, b < w.shape.getD 0 0 → c < w.shape.getD 1 0 →
      s < w.shape.getD 2 0 →
      (irfftTransform (rfft_fft_eq w sr (rfft_gains_linear 0 0 0 0 0 0 0))
        (w.shape.getD 2 0)).data [b, c, s] = w.data [b, c, s] := by
    intro b c s _ _ hs
    rw [irfftTransform_data,
      show (fun k => (rfft_fft_eq w sr (rfft_gains_linear 0 0 0 0 0 0 0)).data [b, c, k]) =
        fun k => dft_bin (fun j => w.data [b, c, j]) (w.shape.getD 2 0) k from by
          funext k
          rw [rfft_fft_eq_data, hgf, Complex.ofReal_one, mul_one]]
    exact irfft_rfft_entry _ _ hn' s hs
  refine ⟨hg1, hgf, _, process_rfft_def hv 0 0 0 0 0 0 0, rfl, ?_, ?_, ?_⟩
  · rw [normalize_shape]
    show [(rfftTransform w).shape.getD 0 0, (rfftTransform w).shape.getD 1 0,
      w.shape.getD 2 0] = w.shape
    rw [show (rfftTransform w).shape.getD 0 0 = w.shape.getD 0 0 from rfl,
      show (rfftTransform w).shape.getD 1 0 = w.shape.getD 1 0 from rfl]
    exact (shape_eq_of_length_three h3).symm
  · intro b c s hb hc hs
    show (normalize_waveform (irfftTransform (rfft_fft_eq w sr
      (rfft_gains_linear 0 0 0 0 0 0 0)) (w.shape.getD 2 0))).data [b, c, s] =
      (normalize_waveform w).data [b, c, s]
    exact @normalize_data_congr (irfftTransform (rfft_fft_eq w sr
      (rfft_gains_linear 0 0 0 0 0 0 0)) (w.shape.getD 2 0)) w rfl rfl rfl hY b c s hb hc hs
  · intro hmax b c s hb hc hs
    show (normalize_waveform (irfftTransform (rfft_fft_eq w sr
      (rfft_gains_linear 0 0 0 0 0 0 0)) (w.shape.getD 2 0))).data [b, c, s] =
      w.data [b, c, s]
    rw [@normalize_data_congr (irfftTransform (rfft_fft_eq w sr
      (rfft_gains_linear 0 0 0 0 0 0 0)) (w.shape.getD 2 0)) w rfl rfl rfl hY b c s hb hc hs,
      normalize_of_le hmax]

/-- C4 witness: the zero-gain identity at the concrete mono two-sample
input. -/
theorem C4_zero_gain_is_identity_witness :
    (∀ b, rfft_gains_linear 0 0 0 0 0 0 0 b = 1) ∧
    (∀ freq : ℝ, rfft_gain_factor (rfft_gains_linear 0 0 0 0 0 0 0) freq = 1) ∧
    (∃ out, process_rfft smallAudio 0 0 0 0 0 0 0 = .ok out ∧
      out.sample_rate = 44100 ∧ out.waveform.shape = smallWave.shape ∧
      (∀ b c s, b < smallWave.shape.getD 0 0 → c < smallWave.shape.getD 1 0 →
        s < smallWave.shape.getD 2 0 →
        out.waveform.data [b, c, s] = (normalize_waveform smallWave).data [b, c, s]) ∧
      (maxAbs smallWave ≤ 1 →
        ∀ b c s, b < smallWave.shape.getD 0 0 → c < smallWave.shape.getD 1 0 →
          s < smallWave.shape.getD 2 0 →
          out.waveform.data [b, c, s] = smallWave.data [b, c, s])) :=
  C4_zero_gain_is_identity smallAudio smallWave 44100 rfl rfl rfl (Or.inl rfl)
    (by norm_num [smallWave])

/-! ### STFT evaluation at the constant input -/

set_option maxRecDepth 4000 in
lemma stft_frames_data (x : RTensor) (i k t : ℕ) :
    (stft_frames x).data [i, k, t] =
      ∑ j ∈ Finset.range 2048,
        (hann_window 2048 j : ℂ) *
        (x.data [i, reflect_index (x.shape.getD 1 0) ((t * 1024 + j : ℤ) - 1024)] : ℂ) *
        Complex.exp (-(2 * (Real.pi : ℂ) * Complex.I * j * k) / 2048) := rfl

lemma hann_stft_eq_data (waveform : RTensor) (sample_rate : ℝ)
    (gains_linear : BandName → ℝ) (idx : List ℕ) :
    (hann_stft_eq waveform sample_rate gains_linear).data idx =
      (stft_frames (view2 waveform)).data idx *
        (hann_gain_profile sample_rate gains_linear
          (stft_freq sample_rate (idx.getD 1 0)) : ℂ) := rfl

lemma subcomp_stft_eq_data (waveform : RTensor) (sample_rate : ℝ)
    (gains_linear : BandName → ℝ) (idx : List ℕ) :
    (subcomp_stft_eq waveform sample_rate gains_linear).data idx =
      (stft_frames (view2 waveform)).data idx *
        (subcomp_gain_profile sample_rate gains_linear
          (stft_freq sample_rate (idx.getD 1 0)) : ℂ) := rfl

lemma subcomp_magnitude_data (waveform : RTensor) (sample_rate : ℝ)
    (gains_linear : BandName → ℝ) (idx : List ℕ) :
    (subcomp_magnitude waveform sample_rate gains_linear).data idx =
      Complex.abs ((subcomp_stft_eq waveform sample_rate gains_linear).data idx) := rfl

lemma hann_gain_profile_one (sample_rate : ℝ) (gains_linear : BandName → ℝ)
    (hg : ∀ b, gains_linear b = 1) (freq : ℝ) :
    hann_gain_profile sample_rate gains_linear freq = 1 := by
  unfold hann_gain_profile
  exact foldl_blend_of_one _ _ hg _ _

lemma subcomp_gain_profile_one (sample_rate : ℝ) (gains_linear : BandName → ℝ)
    (hg : ∀ b, gains_linear b = 1) (freq : ℝ) :
    subcomp_gain_profile sample_rate gains_linear freq = 1 := by
  unfold subcomp_gain_profile
  exact foldl_blend_of_one _ _ hg _ _

lemma hann_gains_linear_zero : ∀ b, hann_gains_linear 0 0 0 0 0 0 0 b = 1 := by
  have h : hann_clamp_db 0 = 0 := min_eq_left (by norm_num)
  intro b
  cases b <;>
    simp [hann_gains_linear, band_select, h, db_to_linear, zero_div, Real.rpow_zero]

lemma subcomp_gains_linear_zero : ∀ b, subcomp_gains_linear 0 0 0 0 0 0 0 b = 1 := by
  have h : subcomp_clamp_db 0 = 0 := by
    unfold subcomp_clamp_db
    rw [min_eq_left (by norm_num), max_eq_left (by norm_num)]
  intro b
  cases b <;>
    simp [subcomp_gains_linear, band_select, h, db_to_linear, zero_div, Real.rpow_zero]

lemma complex_cos_exp (z : ℂ) :
    Complex.cos z = (Complex.exp (z * Complex.I) + Complex.exp (-z * Complex.I)) / 2 := by
  linear_combination (1 / 2 : ℂ) * Complex.two_cos z

lemma hann_window_cast (j : ℕ) :
    ((hann_window 2048 j : ℝ) : ℂ) =
      1 / 2 - (1 / 4) * Complex.exp ((2 * (Real.pi : ℂ) * j / 2048) * Complex.I)
        - (1 / 4) * Complex.exp (-(2 * (Real.pi : ℂ) * j / 2048) * Complex.I) := by
  unfold hann_window
  push_cast [Complex.ofReal_cos]
  rw [complex_cos_exp]
  ring

lemma stft_const_bin_one (t : ℕ) :
    (stft_frames (view2 constWave)).data [0, 1, t] = -512 := by
  rw [stft_frames_data]
  have key : ∀ j ∈ Finset.range 2048,
      (hann_window 2048 j : ℂ) *
        ((view2 constWave).data [0, reflect_index ((view2 constWave).shape.getD 1 0)
          ((t * 1024 + j : ℤ) - 1024)] : ℂ) *
        Complex.exp (-(2 * (Real.pi : ℂ) * Complex.I * j * (1 : ℕ)) / 2048) =
      (1 / 2) * Complex.exp (2 * (Real.pi : ℂ) * Complex.I * ((-1 : ℤ) : ℂ) * j / ((2048 : ℕ) : ℂ))
        - (1 / 4) * Complex.exp (2 * (Real.pi : ℂ) * Complex.I * ((0 : ℤ) : ℂ) * j / ((2048 : ℕ) : ℂ))
        - (1 / 4) * Complex.exp (2 * (Real.pi : ℂ) * Complex.I * ((-2 : ℤ) : ℂ) * j / ((2048 : ℕ) : ℂ)) := by
    intro j _
    rw [show ((view2 constWave).data [0, reflect_index ((view2 constWave).shape.getD 1 0)
        ((t * 1024 + j : ℤ) - 1024)] : ℝ) = 1 from rfl, Complex.ofReal_one, mul_one,
      hann_window_cast]
    rw [show (-(2 * (Real.pi : ℂ) * Complex.I * j * (1 : ℕ)) / 2048) =
        -(2 * (Real.pi : ℂ) * j / 2048) * Complex.I from by push_cast; ring]
    rw [show (2 * (Real.pi : ℂ) * Complex.I * ((-1 : ℤ) : ℂ) * j / ((2048 : ℕ) : ℂ)) =
        -(2 * (Real.pi : ℂ) * j / 2048) * Complex.I from by push_cast; ring]
    rw [show (2 * (Real.pi : ℂ) * Complex.I * ((0 : ℤ) : ℂ) * j / ((2048 : ℕ) : ℂ)) =
        0 from by push_cast; ring]
    rw [show (2 * (Real.pi : ℂ) * Complex.I * ((-2 : ℤ) : ℂ) * j / ((2048 : ℕ) : ℂ)) =
        (-(2 * (Real.pi : ℂ) * j / 2048) * Complex.I) +
          (-(2 * (Real.pi : ℂ) * j / 2048) * Complex.I) from by push_cast; ring]
    rw [Complex.exp_zero, Complex.exp_add]
    have hE : Complex.exp ((2 * (Real.pi : ℂ) * j / 2048) * Complex.I) *
        Complex.exp (-(2 * (Real.pi : ℂ) * j / 2048) * Complex.I) = 1 := by
      rw [← Complex.exp_add,
        show ((2 * (Real.pi : ℂ) * j / 2048) * Complex.I +
          -(2 * (Real.pi : ℂ) * j / 2048) * Complex.I) = 0 from by ring]
      exact Complex.exp_zero
    linear_combination (-(1 / 4) : ℂ) * hE
  rw [Finset.sum_congr rfl key]
  rw [Finset.sum_sub_distrib, Finset.sum_sub_distrib, ← Finset.mul_sum, ← Finset.mul_sum,
    ← Finset.mul_sum]
  rw [exp_int_sum 2048 (by norm_num) (-1), exp_int_sum 2048 (by norm_num) 0,
    exp_int_sum 2048 (by norm_num) (-2)]
  rw [if_neg (by norm_num), if_pos (dvd_zero _), if_neg (by norm_num)]
  norm_num

lemma hann_mag_const :
    Complex.abs ((hann_stft_eq constWave 204800
      (hann_gains_linear 0 0 0 0 0 0 0)).data [0, 1, 0]) = 512 := by
  rw [hann_stft_eq_data, hann_gain_profile_one _ _ hann_gains_linear_zero,
    Complex.ofReal_one, mul_one, stft_const_bin_one,
    show ((-512 : ℂ)) = ((-512 : ℝ) : ℂ) from by norm_num, Complex.abs_ofReal]
  norm_num

lemma subcomp_mag_const :
    Complex.abs ((subcomp_stft_eq constWave 204800
      (subcomp_gains_linear 0 0 0 0 0 0 0)).data [0, 1, 0]) = 512 := by
  rw [subcomp_stft_eq_data, subcomp_gain_profile_one _ _ subcomp_gains_linear_zero,
    Complex.ofReal_one, mul_one, stft_const_bin_one,
    show ((-512 : ℂ)) = ((-512 : ℝ) : ℂ) from by norm_num, Complex.abs_ofReal]
  norm_num

lemma stft_freq_204800_1 : stft_freq 204800 1 = 100 := by
  unfold stft_freq linspace
  rw [if_neg (by norm_num)]
  norm_num

lemma bass_mask_204800_1 : bass_mask_val 204800 1 = 1 := by
  unfold bass_mask_val
  rw [stft_freq_204800_1, if_pos (by norm_num : (20 : ℝ) ≤ 100 ∧ (100 : ℝ) ≤ 250)]

lemma threshold_linear_eq : db_to_linear thresholdDb = 1 / 10 := by
  unfold db_to_linear thresholdDb
  rw [show ((-20 : ℝ) / 20) = ((-1 : ℤ) : ℝ) from by norm_num, Real.rpow_intCast]
  norm_num

/-- The compression step raises (never lowers) the bass-band magnitude:
with identical all-zero gains both strategies' gain shaping is the
identity, so at any bass-masked bin whose magnitude exceeds the linear
threshold, the pre-makeup compressed magnitude of `process_subcomp` is
strictly greater than the magnitude `process_hann` has at the same bin. -/
lemma subcomp_compression_raises (w : RTensor) (sr : ℝ) (idx : List ℕ)
    (hmask : bass_mask_val sr (idx.getD 1 0) = 1)
    (hthr : db_to_linear thresholdDb <
      Complex.abs ((subcomp_stft_eq w sr (subcomp_gains_linear 0 0 0 0 0 0 0)).data idx)) :
    Complex.abs ((hann_stft_eq w sr (hann_gains_linear 0 0 0 0 0 0 0)).data idx) <
      (subcomp_mag_compressed w sr (subcomp_gains_linear 0 0 0 0 0 0 0)).data idx := by
  have heq : (hann_stft_eq w sr (hann_gains_linear 0 0 0 0 0 0 0)).data idx =
      (subcomp_stft_eq w sr (subcomp_gains_linear 0 0 0 0 0 0 0)).data idx := by
    rw [hann_stft_eq_data, subcomp_stft_eq_data,
      hann_gain_profile_one _ _ hann_gains_linear_zero,
      subcomp_gain_profile_one _ _ subcomp_gains_linear_zero]
  have hpos : (0 : ℝ) < db_to_linear thresholdDb := by
    unfold db_to_linear
    exact Real.rpow_pos_of_pos (by norm_num) _
  have h0 : 0 < Complex.abs ((subcomp_stft_eq w sr
      (subcomp_gains_linear 0 0 0 0 0 0 0)).data idx) := lt_trans hpos hthr
  have hgrl := gain_reduction_pos (subcomp_over_threshold
    (Complex.abs ((subcomp_stft_eq w sr (subcomp_gains_linear 0 0 0 0 0 0 0)).data idx)) 1)
  rw [heq, subcomp_mag_compressed_data, hmask, mul_one, subcomp_magnitude_data]
  nlinarith

/-- C9 (counterexample to the claim as stated): the constant mono input
at 204800 Hz is bass-heavy — its STFT magnitude at the 100 Hz bin
(bin 1, inside the [20, 250] Hz mask) is 512, far above the -20 dB
threshold — yet with identical all-zero gains the post-compression,
pre-makeup magnitude of `process_subcomp` at that bin is strictly
GREATER than the magnitude of `process_hann` there, not lower. -/
theorem C9_counterexample :
    bass_mask_val 204800 1 = 1 ∧
    Complex.abs ((subcomp_stft_eq constWave 204800
      (subcomp_gains_linear 0 0 0 0 0 0 0)).data [0, 1, 0]) = 512 ∧
    db_to_linear thresholdDb <
      Complex.abs ((subcomp_stft_eq constWave 204800
        (subcomp_gains_linear 0 0 0 0 0 0 0)).data [0, 1, 0]) ∧
    Complex.abs ((hann_stft_eq constWave 204800
      (hann_gains_linear 0 0 0 0 0 0 0)).data [0, 1, 0]) <
      (subcomp_mag_compressed constWave 204800
        (subcomp_gains_linear 0 0 0 0 0 0 0)).data [0, 1, 0] := by
  have hthr : db_to_linear thresholdDb <
      Complex.abs ((subcomp_stft_eq constWave 204800
        (subcomp_gains_linear 0 0 0 0 0 0 0)).data [0, 1, 0]) := by
    rw [threshold_linear_eq, subcomp_mag_const]
    norm_num
  exact ⟨bass_mask_204800_1, subcomp_mag_const, hthr,
    subcomp_compression_raises constWave 204800 [0, 1, 0] bass_mask_204800_1 hthr⟩

/-- C9 (amended): for every input and bass-masked STFT bin whose
gain-shaped magnitude exceeds the -20 dB threshold, `process_subcomp`
(with all-zero gains, so that the two strategies' gain shaping agrees)
produces a strictly HIGHER post-compression pre-makeup magnitude than
`process_hann` at the same bin — the blend `magnitude * (1 + grl)`
raises bass magnitudes instead of lowering them. -/
theorem C9_compression_comparison (w : RTensor) (sr : ℝ) (idx : List ℕ)
    (hmask : bass_mask_val sr (idx.getD 1 0) = 1)
    (hthr : db_to_linear thresholdDb <
      Complex.abs ((subcomp_stft_eq w sr (subcomp_gains_linear 0 0 0 0 0 0 0)).data idx)) :
    Complex.abs ((hann_stft_eq w sr (hann_gains_linear 0 0 0 0 0 0 0)).data idx) <
      (subcomp_mag_compressed w sr (subcomp_gains_linear 0 0 0 0 0 0 0)).data idx :=
  subcomp_compression_raises w sr idx hmask hthr

/-- C9 witness: the amended comparison at the concrete bass-heavy
constant input, bin 1 (100 Hz). -/
theorem C9_compression_comparison_witness :
    Complex.abs ((hann_stft_eq constWave 204800
      (hann_gains_linear 0 0 0 0 0 0 0)).data [0, 1, 0]) <
      (subcomp_mag_compressed constWave 204800
        (subcomp_gains_linear 0 0 0 0 0 0 0)).data [0, 1, 0] :=
  C9_compression_comparison constWave 204800 [0, 1, 0] bass_mask_204800_1
    (by rw [threshold_linear_eq, subcomp_mag_const]; norm_num)

end MultibandEQ
